import Mathlib

/-!
Shallow embedding of `src/extensions/libevent.c` (guile-fibers libevent
binding).  The C file marshals calls between Guile and libevent:

* `struct event_data` — a (file descriptor, readiness mask) record;
* `struct wait_data` — the shared collection buffer: a cursor `rv`, a
  pointer `events` into a caller-supplied bytevector, and the capacity
  `maxevents` (bytevector length divided by `sizeof (struct event_data)`);
* `cb_func` — the collector callback libevent invokes per ready event;
* `scm_primitive_event_wake` / `create_event_base` / `add_event` /
  `remove_event` / `resize` / `event_loop` — the six exposed primitives;
* `run_event_loop` — timeout conversion and one `event_base_loop` pass.

External effects (libevent delivery order, `read`/`write` results,
`scm_c_prepare_to_wait_on_fd`) are modelled as explicit parameters; the
fatal Guile errors (`SCM_MISC_ERROR`, `SCM_SYSERROR`) become the
`Except.error` constructor, which aborts the operation with the state
unchanged, matching the non-local exit in C.
-/

/-- One `struct event_data` record: `int fd; short event;`.  The mask is a
nonnegative bit set of libevent `EV_*` flags, so it is modelled as `Nat`. -/
structure EventData where
  fd : Int
  event : Nat
deriving DecidableEq, Repr

/-- Value of `sizeof (struct event_data)` on the usual ABIs: 4 bytes of
`int`, 2 bytes of `short`, 2 bytes of padding. -/
def sizeof_event_data : Nat := 8

/-- The shared `struct wait_data`: cursor `rv`, the buffer contents viewed
as a total map from slot index to record (writes past `maxevents` never
happen, which is part of what we prove), and the capacity `maxevents`. -/
structure WaitData where
  rv : Nat
  events : Nat → EventData
  maxevents : Nat

/-- libevent readiness flag `EV_READ`. -/
def EV_READ : Nat := 2

/-- libevent readiness flag `EV_WRITE`. -/
def EV_WRITE : Nat := 4

/-- libevent flag `EV_PERSIST`: a registration carrying it re-arms itself
after firing (libevent auto-deletes non-persistent events once fired). -/
def EV_PERSIST : Nat := 16

/-- libevent readiness flag `EV_CLOSED`. -/
def EV_CLOSED : Nat := 128

/-- Linux errno value for `EWOULDBLOCK`. -/
def EWOULDBLOCK : Nat := 11

/-- Linux errno value for `EAGAIN` (equal to `EWOULDBLOCK` on Linux; the C
code tests both). -/
def EAGAIN : Nat := 11

/-- Model of `cb_func` (libevent.c lines 68-88): read the cursor, fail with
the `max events fired` misc error when it has reached the capacity — before
anything is written — and otherwise `memcpy` the record `{fd, what}` to slot
`rv` and increment the cursor. -/
def cb_func (fd : Int) (what : Nat) (data : WaitData) : Except String WaitData :=
  if data.maxevents ≤ data.rv then
    Except.error "max events fired"
  else
    Except.ok { data with
                events := Function.update data.events data.rv ⟨fd, what⟩,
                rv := data.rv + 1 }

/-- Description of the `write` system call issued by
`scm_primitive_event_wake`: target descriptor and byte count. -/
structure WriteCall where
  fd : Int
  nbytes : Nat
deriving DecidableEq, Repr

/-- Model of `scm_primitive_event_wake` (lines 90-104): write one zero byte
to the wake descriptor; `writeRet` is the value returned by `write` and
`errno` the error code it left.  `SCM_SYSERROR` fires when the write did not
succeed (`writeRet <= 0`) and errno is neither `EWOULDBLOCK` nor `EAGAIN`. -/
def scm_primitive_event_wake (wakefd : Int) (writeRet : Int) (errno : Nat) :
    WriteCall × Except String Unit :=
  (⟨wakefd, 1⟩,
   if writeRet ≤ 0 ∧ errno ≠ EWOULDBLOCK ∧ errno ≠ EAGAIN then
     Except.error "system error"
   else
     Except.ok ())

/-- Model of `scm_primitive_create_event_base` (lines 106-130):
`baseAllocOk` is whether `event_base_new` succeeded; `buf`/`bufLen` are the
contents and byte length of the caller-supplied bytevector.  On success the
fresh `wait_data` has cursor 0, points at the bytevector, and has capacity
`bufLen / sizeof (struct event_data)`. -/
def scm_primitive_create_event_base (baseAllocOk : Bool) (buf : Nat → EventData)
    (bufLen : Nat) : Except String WaitData :=
  if baseAllocOk = false then
    Except.error "couldnt allocate event_base"
  else
    Except.ok { rv := 0, events := buf, maxevents := bufLen / sizeof_event_data }

/-- The callback slot of a libevent registration, symbolically:
`event_new` in `scm_primitive_add_event` always passes `cb_func`
(`Callback.collector`); other values model foreign registrations. -/
inductive Callback
  | collector
  | other (tag : Nat)
deriving DecidableEq, Repr

/-- One libevent registration as created by `event_new`: descriptor, flag
mask, callback, and whether the callback argument is the shared
`wait_data` (the C code passes `data`, the shared buffer record). -/
structure Registration where
  fd : Int
  mask : Nat
  callback : Callback
  argIsSharedWaitData : Bool
deriving DecidableEq, Repr

/-- libevent semantics (documented in event.h): a registration re-arms
itself after firing exactly when its mask carries `EV_PERSIST`. -/
def Registration.isPersistent (r : Registration) : Bool :=
  r.mask &&& EV_PERSIST != 0

/-- The reactor registry: the set of currently added registrations keyed by
an identifier standing for the `struct event *` address, plus a fresh-key
counter. -/
structure Reactor where
  regs : List (Nat × Registration)
  nextId : Nat
deriving DecidableEq, Repr

/-- Model of `scm_primitive_add_event` (lines 132-163): `event_new` may
fail to allocate (`allocOk = false` gives the misc error `couldnt allocate
event`), `event_add` with a `NULL` timeout may fail (`addOk = false` gives
`failed to add event`); on success the registration — descriptor `fd`, mask
`ev` verbatim, callback `cb_func`, argument the shared `wait_data` — is
added to the base and its handle returned. -/
def scm_primitive_add_event (r : Reactor) (fd : Int) (ev : Nat)
    (allocOk addOk : Bool) : Except String (Reactor × Nat) :=
  if allocOk = false then
    Except.error "couldnt allocate event"
  else if addOk = false then
    Except.error "failed to add event"
  else
    Except.ok
      ({ regs := r.regs ++
           [(r.nextId,
             { fd := fd, mask := ev, callback := Callback.collector,
               argIsSharedWaitData := true })],
         nextId := r.nextId + 1 },
       r.nextId)

/-- Model of `scm_primitive_remove_event` (lines 165-177): `event_del` may
fail (`delOk = false` gives `failed to delete event`); on success the
registration with that handle is no longer in the base. -/
def scm_primitive_remove_event (r : Reactor) (id : Nat) (delOk : Bool) :
    Except String Reactor :=
  if delOk = false then
    Except.error "failed to delete event"
  else
    Except.ok { r with regs := r.regs.filter (fun p => p.1 != id) }

/-- Model of `scm_primitive_resize` (lines 179-193): repoint `events` at the
new bytevector and recompute `maxevents` from its byte length; the cursor is
left untouched. -/
def scm_primitive_resize (d : WaitData) (buf : Nat → EventData) (bufLen : Nat) :
    WaitData :=
  { d with events := buf, maxevents := bufLen / sizeof_event_data }

/-- Global `time_units_per_microsec` computed in `init_fibers_libevt`
(line 306): `scm_c_time_units_per_second / 1000000` in unsigned integer
division. -/
def time_units_per_microsec (U : Nat) : Nat := U / 1000000

/-- Global `microsec_per_time_units` computed in `init_fibers_libevt`
(line 307): `1000000 / scm_c_time_units_per_second` in unsigned integer
division. -/
def microsec_per_time_units (U : Nat) : Nat := 1000000 / U

/-- A `struct timeval` deadline as filled in by `run_event_loop`; both
fields are nonnegative there, so they are modelled as `Nat`. -/
structure Timeval where
  tv_sec : Nat
  tv_usec : Nat
deriving DecidableEq, Repr

/-- Deadline installed by `run_event_loop` (lines 197-227) via
`event_base_loopexit`: for `timeout >= 0` the seconds are
`timeout / scm_c_time_units_per_second` and the microseconds are the
remainder divided by `time_units_per_microsec` when that global is positive,
multiplied by `microsec_per_time_units` otherwise; a negative timeout
installs no deadline (the loop blocks unboundedly).  `U` is
`scm_c_time_units_per_second`; the C arithmetic is on nonnegative `int64`
values, hence the `Nat` computation on `timeout.toNat`. -/
def run_event_loop_deadline (U : Nat) (timeout : Int) : Option Timeval :=
  if 0 ≤ timeout then
    some { tv_sec := timeout.toNat / U,
           tv_usec :=
             if 0 < time_units_per_microsec U then
               (timeout.toNat % U) / time_units_per_microsec U
             else
               (timeout.toNat % U) * microsec_per_time_units U }
  else
    none

/-- Scheduler-integration actions performed by `scm_primitive_event_loop`,
in order of occurrence, used to state the blocking protocol. -/
inductive SchedAction
  | prepareToWait (fd : Int)
  | waitOutsideGuile
  | waitDirect
  | waitFinished
deriving DecidableEq, Repr

/-- The wait itself: `event_base_loop (base, EVLOOP_ONCE)` invokes `cb_func`
once per delivered readiness event; `firings` is the (fd, mask) delivery
sequence chosen by libevent.  An error thrown by `cb_func` aborts the loop. -/
def runWait (firings : List (Int × Nat)) (d : WaitData) : Except String WaitData :=
  match firings with
  | [] => Except.ok d
  | (fd, what) :: rest =>
    match cb_func fd what d with
    | Except.error e => Except.error e
    | Except.ok d₁ => runWait rest d₁

/-- Effect of `memmove (events + i, events + i + 1, cnt * sizeof (struct
event_data))` on the buffer map: slots `i ≤ j < i + cnt` take the old value
of slot `j + 1`; every other slot is untouched. -/
def shiftDown (f : Nat → EventData) (i cnt : Nat) : Nat → EventData :=
  fun j => if i ≤ j ∧ j < i + cnt then f (j + 1) else f j

/-- The compaction scan of `scm_primitive_event_loop` (lines 266-289): walk
`i` upward; at the first record whose descriptor equals the woke descriptor,
decrement the cursor, `memmove` the later records down one slot, and break
(the second component reports whether a record was removed, which is also
when the drain runs). -/
def removeWokeLoop (wokefd : Int) (d : WaitData) (i : Nat) : WaitData × Bool :=
  if h : i < d.rv then
    if (d.events i).fd = wokefd then
      ({ d with rv := d.rv - 1,
                events := shiftDown d.events i (d.rv - 1 - i) }, true)
    else
      removeWokeLoop wokefd d (i + 1)
  else
    (d, false)
termination_by d.rv - i
decreasing_by omega

/-- The first `n` records of the buffer, as a list (the portion of the
buffer a caller may read, `n` being the cursor or the returned count). -/
def bufSlice (d : WaitData) (n : Nat) : List EventData :=
  (List.range n).map d.events

/-- The valid portion of the buffer: its first `rv` records. -/
def bufView (d : WaitData) : List EventData :=
  bufSlice d d.rv

/-- Bytes left in the wake pipe after the drain loop
`while (read (c_wokefd, zeroes, 32) == 32) ;` when every read succeeds,
returning `min remaining 32` bytes: the loop repeats while a read returns
exactly 32 bytes and stops at the first shorter read. -/
def drainRemaining (n : Nat) : Nat :=
  if h : 32 ≤ n then drainRemaining (n - 32) else 0
termination_by n
decreasing_by omega

/-- Drain loop with injected read failures: `errs` says, per read attempt,
whether `read` fails (returns -1).  A failed read returns a value other than
32, so the loop simply exits with the remaining bytes unread — no error is
raised.  Once `errs` is exhausted reads behave normally. -/
def drainWithErrors (errs : List Bool) (n : Nat) : Nat :=
  match errs with
  | [] => drainRemaining n
  | e :: rest =>
    if e then n
    else if 32 ≤ n then drainWithErrors rest (n - 32)
    else 0

/-- Result of one `scm_primitive_event_loop` call: the scheduler actions it
performed, in order, and either a fatal error or the triple (returned count,
final `wait_data`, bytes left pending in the wake pipe). -/
structure LoopResult where
  trace : List SchedAction
  outcome : Except String (Nat × WaitData × Nat)

/-- Model of `scm_primitive_event_loop` (lines 229-301).  Inputs beyond the
C arguments: `interrupted` is the return value of
`scm_c_prepare_to_wait_on_fd`, `firings` the events libevent delivers during
the wait, `drainErrs` the read-failure oracle for the drain, `pendingWake`
the bytes pending in the wake pipe.  The C control flow: when the timeout is
nonzero and the prepare call reports an interrupt, zero the cursor and skip
the wait; otherwise run the wait (wrapped in `scm_without_guile` and
followed by `scm_c_wait_finished` exactly when the timeout is nonzero),
compact out the first woke-descriptor record and drain the pipe if one was
found, publish the cursor as the result, and reset the cursor to zero. -/
def scm_primitive_event_loop (wakefd wokefd : Int) (timeout : Int)
    (interrupted : Bool) (firings : List (Int × Nat)) (drainErrs : List Bool)
    (d : WaitData) (pendingWake : Nat) : LoopResult :=
  if timeout ≠ 0 ∧ interrupted = true then
    { trace := [SchedAction.prepareToWait wakefd],
      outcome := Except.ok (0, { d with rv := 0 }, pendingWake) }
  else
    { trace :=
        (if timeout ≠ 0 then [SchedAction.prepareToWait wakefd] else []) ++
        [(if timeout ≠ 0 then SchedAction.waitOutsideGuile else SchedAction.waitDirect)] ++
        (match runWait firings d with
         | Except.error _ => []
         | Except.ok _ => if timeout ≠ 0 then [SchedAction.waitFinished] else []),
      outcome :=
        match runWait firings d with
        | Except.error e => Except.error e
        | Except.ok d₁ =>
          Except.ok
            ((removeWokeLoop wokefd d₁ 0).1.rv,
             { (removeWokeLoop wokefd d₁ 0).1 with rv := 0 },
             if (removeWokeLoop wokefd d₁ 0).2 then
               drainWithErrors drainErrs pendingWake
             else
               pendingWake) }

/-- Returned count of a loop call, when it did not error. -/
def LoopResult.okCount (r : LoopResult) : Option Nat :=
  match r.outcome with
  | Except.ok (n, _, _) => some n
  | Except.error _ => none

/-- The record list a caller reads back: the first `count` records of the
final buffer, when the call did not error. -/
def LoopResult.okRecords (r : LoopResult) : Option (List EventData) :=
  match r.outcome with
  | Except.ok (n, d, _) => some (bufSlice d n)
  | Except.error _ => none

/-- Bytes left pending in the wake pipe, when the call did not error. -/
def LoopResult.okPending (r : LoopResult) : Option Nat :=
  match r.outcome with
  | Except.ok (_, _, p) => some p
  | Except.error _ => none

/-- Concrete empty four-slot buffer state used by witnesses. -/
def d0ex : WaitData := { rv := 0, events := fun _ => ⟨0, 0⟩, maxevents := 4 }

/-- Concrete full buffer state (cursor at capacity) used by witnesses. -/
def dFullEx : WaitData := { rv := 4, events := fun _ => ⟨0, 0⟩, maxevents := 4 }

theorem drainRemaining_eq_zero (n : Nat) : drainRemaining n = 0 := by
  induction n using Nat.strong_induction_on with
  | _ n ih =>
    rw [drainRemaining]
    split
    · exact ih _ (by omega)
    · rfl

/-- C1: each collector-callback invocation fails with the `max events
fired` error — writing nothing — when the cursor has reached the declared
capacity, and otherwise deposits the (descriptor, mask) record at slot
`rv`, an in-bounds index; slots at or past the capacity are never
written. -/
theorem cb_func_capacity_check (fd : Int) (what : Nat) (d : WaitData) :
    (d.maxevents ≤ d.rv → cb_func fd what d = Except.error "max events fired") ∧
    (d.rv < d.maxevents →
      cb_func fd what d =
        Except.ok { rv := d.rv + 1,
                    events := Function.update d.events d.rv ⟨fd, what⟩,
                    maxevents := d.maxevents } ∧
      Function.update d.events d.rv ⟨fd, what⟩ d.rv = ⟨fd, what⟩ ∧
      d.rv < d.maxevents ∧
      (∀ j, d.maxevents ≤ j →
        Function.update d.events d.rv ⟨fd, what⟩ j = d.events j)) := by
  constructor
  · intro h
    rw [cb_func, if_pos h]
  · intro h
    refine ⟨by rw [cb_func, if_neg (by omega)], Function.update_same _ _ _, h, ?_⟩
    intro j hj
    exact Function.update_noteq (by omega) _ _

/-- Witness for C1: with the cursor at capacity the callback errors; on the
fresh buffer it deposits `(5, EV_READ)` at slot 0 and bumps the cursor. -/
theorem cb_func_capacity_check_witness :
    cb_func 5 2 dFullEx = Except.error "max events fired" ∧
    cb_func 5 2 d0ex =
      Except.ok { rv := 1, events := Function.update d0ex.events 0 ⟨5, 2⟩,
                  maxevents := 4 } := by
  refine ⟨(cb_func_capacity_check 5 2 dFullEx).1 (by decide), ?_⟩
  exact ((cb_func_capacity_check 5 2 d0ex).2 (by decide)).1

/-- C5: for a nonnegative timeout the installed deadline is exactly
`tv_sec = T / U` and `tv_usec` the remainder `T % U` divided by the
time-units-per-microsecond factor when `U > 1000000` and multiplied by the
microseconds-per-time-unit factor otherwise; a negative timeout installs no
deadline, so the wait is unbounded. -/
theorem run_event_loop_timeout_conversion (U : Nat) (t : Int) (hU : 0 < U) :
    (t < 0 → run_event_loop_deadline U t = none) ∧
    (0 ≤ t → run_event_loop_deadline U t =
      some { tv_sec := t.toNat / U,
             tv_usec :=
               if 1000000 < U then (t.toNat % U) / (U / 1000000)
               else (t.toNat % U) * (1000000 / U) }) := by
  constructor
  · intro h
    rw [run_event_loop_deadline, if_neg (by omega)]
  · intro h
    rw [run_event_loop_deadline, if_pos h]
    unfold time_units_per_microsec microsec_per_time_units
    rcases Nat.lt_trichotomy U 1000000 with hc | hc | hc
    · rw [if_neg (by omega), if_neg (by omega)]
    · subst hc
      norm_num
    · rw [if_pos (by omega), if_pos hc]

/-- Witness for C5 at `U = 1000000` (Guile's microsecond time unit):
2.5 seconds of time units convert to 2 s + 500000 µs, and a negative
timeout installs no deadline. -/
theorem run_event_loop_timeout_conversion_witness :
    run_event_loop_deadline 1000000 2500000 = some ⟨2, 500000⟩ ∧
    run_event_loop_deadline 1000000 (-1) = none := by
  have h := run_event_loop_timeout_conversion 1000000 2500000 (by decide)
  have h2 := run_event_loop_timeout_conversion 1000000 (-1) (by decide)
  exact ⟨(h.2 (by decide)).trans (by decide), h2.1 (by decide)⟩

/-- C7: a resize repoints the buffer and recomputes the capacity as the new
byte length divided by the record size, leaving the cursor alone, and a
subsequent collector-callback invocation checks the new capacity and
deposits into the new buffer — the old buffer and capacity are not
consulted. -/
theorem resize_updates_buffer_and_capacity (d : WaitData) (buf : Nat → EventData)
    (bufLen : Nat) (fd : Int) (what : Nat) :
    (scm_primitive_resize d buf bufLen).maxevents = bufLen / sizeof_event_data ∧
    (scm_primitive_resize d buf bufLen).events = buf ∧
    (scm_primitive_resize d buf bufLen).rv = d.rv ∧
    (bufLen / sizeof_event_data ≤ d.rv →
      cb_func fd what (scm_primitive_resize d buf bufLen) =
        Except.error "max events fired") ∧
    (d.rv < bufLen / sizeof_event_data →
      cb_func fd what (scm_primitive_resize d buf bufLen) =
        Except.ok { rv := d.rv + 1,
                    events := Function.update buf d.rv ⟨fd, what⟩,
                    maxevents := bufLen / sizeof_event_data }) := by
  refine ⟨rfl, rfl, rfl, ?_, ?_⟩
  · intro h
    exact (cb_func_capacity_check fd what
      (scm_primitive_resize d buf bufLen)).1 h
  · intro h
    exact ((cb_func_capacity_check fd what
      (scm_primitive_resize d buf bufLen)).2 h).1

/-- Witness for C7: the full 4-slot buffer, resized to a 32-byte bytevector
(still capacity 4), rejects a deposit at cursor 4; resized to a 64-byte
bytevector (capacity 8) it accepts the deposit — the new capacity governs. -/
theorem resize_updates_buffer_and_capacity_witness :
    cb_func 5 2 (scm_primitive_resize dFullEx (fun _ => ⟨1, 1⟩) 32) =
      Except.error "max events fired" ∧
    cb_func 5 2 (scm_primitive_resize dFullEx (fun _ => ⟨1, 1⟩) 64) =
      Except.ok { rv := 5,
                  events := Function.update (fun _ => ⟨1, 1⟩) 4 ⟨5, 2⟩,
                  maxevents := 8 } := by
  refine ⟨?_, ?_⟩
  · exact (resize_updates_buffer_and_capacity dFullEx (fun _ => ⟨1, 1⟩) 32 5 2).2.2.2.1
      (by decide)
  · exact (resize_updates_buffer_and_capacity dFullEx (fun _ => ⟨1, 1⟩) 64 5 2).2.2.2.2
      (by decide)

/-- C8: the wake primitive issues a single-byte write to the wake
descriptor and returns normally exactly when the write succeeded or failed
with a would-block errno, raising the fatal system error otherwise; a
failed reactor allocation in create-event-base and a failed registration
allocation in add-event each raise a fatal error aborting the operation. -/
theorem wake_write_and_alloc_failures (wakefd writeRet : Int) (errno : Nat)
    (buf : Nat → EventData) (bufLen : Nat) (r : Reactor) (fd : Int) (ev : Nat)
    (addOk : Bool) :
    (scm_primitive_event_wake wakefd writeRet errno).1 = ⟨wakefd, 1⟩ ∧
    ((scm_primitive_event_wake wakefd writeRet errno).2 = Except.ok () ↔
      0 < writeRet ∨ errno = EWOULDBLOCK ∨ errno = EAGAIN) ∧
    scm_primitive_create_event_base false buf bufLen =
      Except.error "couldnt allocate event_base" ∧
    scm_primitive_add_event r fd ev false addOk =
      Except.error "couldnt allocate event" := by
  refine ⟨rfl, ?_, rfl, rfl⟩
  rw [scm_primitive_event_wake]
  constructor
  · intro h
    by_contra hc
    push_neg at hc
    rw [if_pos ⟨by omega, hc.2.1, hc.2.2⟩] at h
    exact Except.noConfusion h
  · intro h
    rw [if_neg]
    intro ⟨h1, h2, h3⟩
    rcases h with h | h | h
    · omega
    · exact h2 h
    · exact h3 h

/-- Counterexample to C3: `primitive-add-event` forwards the caller's mask
verbatim to `event_new`, so a call with mask `EV_READ` (no `EV_PERSIST`
bit) succeeds yet creates a registration that is not persistent — libevent
auto-rearms a registration only when its mask carries `EV_PERSIST`. -/
theorem add_event_read_mask_not_persistent :
    scm_primitive_add_event { regs := [], nextId := 0 } 5 EV_READ true true =
      Except.ok
        ({ regs := [(0, { fd := 5, mask := EV_READ,
                          callback := Callback.collector,
                          argIsSharedWaitData := true })],
           nextId := 1 }, 0) ∧
    ({ fd := 5, mask := EV_READ, callback := Callback.collector,
       argIsSharedWaitData := true } : Registration).isPersistent = false := by
  exact ⟨rfl, rfl⟩

/-- C3 as amended: an add-event call (with both libevent calls succeeding)
creates exactly one new registration carrying the caller's descriptor and
mask verbatim, tied to the collector callback `cb_func` and the shared
`wait_data`, and that registration is persistent precisely when the mask
carries `EV_PERSIST`; a remove-event call (with `event_del` succeeding)
cancels the registration with that handle, which is then no longer
registered. -/
theorem add_event_creates_collector_registration (r : Reactor) (fd : Int)
    (ev : Nat) :
    scm_primitive_add_event r fd ev true true =
      Except.ok
        ({ regs := r.regs ++
             [(r.nextId, { fd := fd, mask := ev,
                           callback := Callback.collector,
                           argIsSharedWaitData := true })],
           nextId := r.nextId + 1 }, r.nextId) ∧
    (({ fd := fd, mask := ev, callback := Callback.collector,
        argIsSharedWaitData := true } : Registration).isPersistent = true ↔
      ev &&& EV_PERSIST ≠ 0) ∧
    (∀ (rr : Reactor) (id : Nat),
      scm_primitive_remove_event rr id true =
        Except.ok { rr with regs := rr.regs.filter (fun p => p.1 != id) }) ∧
    (∀ (rr : Reactor) (id : Nat) (q : Nat × Registration),
      q ∈ rr.regs.filter (fun p => p.1 != id) → q.1 ≠ id) := by
  refine ⟨rfl, ?_, fun rr id => rfl, ?_⟩
  · simp [Registration.isPersistent]
  · intro rr id q hq
    have := List.of_mem_filter hq
    simpa using this

/-- Witness for C3 (amended): adding descriptor 5 with mask
`EV_READ ||| EV_PERSIST` on an empty reactor creates the persistent
collector registration with handle 0, and removing handle 0 afterwards
leaves the registry empty. -/
theorem add_event_creates_collector_registration_witness :
    scm_primitive_add_event { regs := [], nextId := 0 } 5 18 true true =
      Except.ok
        ({ regs := [(0, { fd := 5, mask := 18,
                          callback := Callback.collector,
                          argIsSharedWaitData := true })],
           nextId := 1 }, 0) ∧
    ({ fd := 5, mask := 18, callback := Callback.collector,
       argIsSharedWaitData := true } : Registration).isPersistent = true ∧
    ((1, ({ fd := 5, mask := 18, callback := Callback.collector,
            argIsSharedWaitData := true } : Registration)) : Nat × Registration).1 ≠ 0 := by
  have h := add_event_creates_collector_registration { regs := [], nextId := 0 } 5 18
  refine ⟨h.1, h.2.1.mpr (by decide), ?_⟩
  exact h.2.2.2
    { regs := [(1, { fd := 5, mask := 18, callback := Callback.collector,
                     argIsSharedWaitData := true })], nextId := 2 }
    0 _ (by decide)

theorem removeWokeLoop_stop (wokefd : Int) (d : WaitData) (i : Nat)
    (h : d.rv ≤ i) : removeWokeLoop wokefd d i = (d, false) := by
  rw [removeWokeLoop]
  simp [Nat.not_lt.mpr h]

theorem removeWokeLoop_hit (wokefd : Int) (d : WaitData) (i : Nat)
    (h : i < d.rv) (hfd : (d.events i).fd = wokefd) :
    removeWokeLoop wokefd d i =
      ({ d with rv := d.rv - 1,
                events := shiftDown d.events i (d.rv - 1 - i) }, true) := by
  rw [removeWokeLoop]
  simp [h, hfd]

theorem removeWokeLoop_skip (wokefd : Int) (d : WaitData) (i : Nat)
    (h : i < d.rv) (hfd : (d.events i).fd ≠ wokefd) :
    removeWokeLoop wokefd d i = removeWokeLoop wokefd d (i + 1) := by
  conv_lhs => rw [removeWokeLoop]
  simp [h, hfd]

theorem removeWokeLoop_hitAt (wokefd : Int) (d : WaitData) :
    ∀ k i m, d.rv - i ≤ k → i ≤ m → m < d.rv →
    (∀ j, i ≤ j → j < m → (d.events j).fd ≠ wokefd) →
    (d.events m).fd = wokefd →
    removeWokeLoop wokefd d i =
      ({ d with rv := d.rv - 1,
                events := shiftDown d.events m (d.rv - 1 - m) }, true) := by
  intro k
  induction k with
  | zero => intro i m hk him hm _ _; omega
  | succ k ih =>
    intro i m hk him hm hbef hhit
    rcases Nat.eq_or_lt_of_le him with heq | hlt
    · subst heq
      exact removeWokeLoop_hit wokefd d i hm hhit
    · rw [removeWokeLoop_skip wokefd d i (by omega) (hbef i le_rfl hlt)]
      exact ih (i + 1) m (by omega) hlt hm
        (fun j hj1 hj2 => hbef j (by omega) hj2) hhit

theorem removeWokeLoop_noHit (wokefd : Int) (d : WaitData) :
    ∀ k i, d.rv - i ≤ k →
    (∀ j, i ≤ j → j < d.rv → (d.events j).fd ≠ wokefd) →
    removeWokeLoop wokefd d i = (d, false) := by
  intro k
  induction k with
  | zero => intro i hk _; exact removeWokeLoop_stop wokefd d i (by omega)
  | succ k ih =>
    intro i hk hno
    by_cases h : i < d.rv
    · rw [removeWokeLoop_skip wokefd d i h (hno i le_rfl h)]
      exact ih (i + 1) (by omega) (fun j hj1 hj2 => hno j (by omega) hj2)
    · exact removeWokeLoop_stop wokefd d i (by omega)

theorem removeWoke_first_facts (wokefd : Int) (d : WaitData) (m : Nat)
    (hm : m < d.rv) (hhit : (d.events m).fd = wokefd)
    (hbef : ∀ j, j < m → (d.events j).fd ≠ wokefd) :
    removeWokeLoop wokefd d 0 =
      ({ d with rv := d.rv - 1,
                events := shiftDown d.events m (d.rv - 1 - m) }, true) ∧
    (∀ j, j < m → shiftDown d.events m (d.rv - 1 - m) j = d.events j) ∧
    (∀ j, m ≤ j → j < d.rv - 1 →
      shiftDown d.events m (d.rv - 1 - m) j = d.events (j + 1)) ∧
    (∀ j, d.rv - 1 ≤ j → shiftDown d.events m (d.rv - 1 - m) j = d.events j) := by
  refine ⟨removeWokeLoop_hitAt wokefd d d.rv 0 m (by omega) (Nat.zero_le m) hm
    (fun j _ hj => hbef j hj) hhit, ?_, ?_, ?_⟩
  · intro j hj
    rw [shiftDown, if_neg (by omega)]
  · intro j hj1 hj2
    rw [shiftDown, if_pos ⟨hj1, by omega⟩]
  · intro j hj
    rw [shiftDown, if_neg (by omega)]

theorem event_loop_interrupted (wakefd wokefd : Int) (timeout : Int)
    (firings : List (Int × Nat)) (drainErrs : List Bool) (d : WaitData)
    (pending : Nat) (h1 : timeout ≠ 0) :
    scm_primitive_event_loop wakefd wokefd timeout true firings drainErrs d
        pending =
      { trace := [SchedAction.prepareToWait wakefd],
        outcome := Except.ok (0, { d with rv := 0 }, pending) } := by
  rw [scm_primitive_event_loop, if_pos ⟨h1, rfl⟩]

theorem event_loop_run (wakefd wokefd : Int) (timeout : Int)
    (interrupted : Bool) (firings : List (Int × Nat)) (drainErrs : List Bool)
    (d d₁ : WaitData) (pending : Nat)
    (hbranch : timeout = 0 ∨ interrupted = false)
    (hwait : runWait firings d = Except.ok d₁) :
    scm_primitive_event_loop wakefd wokefd timeout interrupted firings
        drainErrs d pending =
      { trace :=
          (if timeout ≠ 0 then [SchedAction.prepareToWait wakefd] else []) ++
          [(if timeout ≠ 0 then SchedAction.waitOutsideGuile
            else SchedAction.waitDirect)] ++
          (if timeout ≠ 0 then [SchedAction.waitFinished] else []),
        outcome :=
          Except.ok
            ((removeWokeLoop wokefd d₁ 0).1.rv,
             { (removeWokeLoop wokefd d₁ 0).1 with rv := 0 },
             if (removeWokeLoop wokefd d₁ 0).2 then
               drainWithErrors drainErrs pending
             else
               pending) } := by
  have hcond : ¬ (timeout ≠ 0 ∧ interrupted = true) := by
    rcases hbranch with h | h
    · exact fun hc => hc.1 h
    · exact fun hc => by rw [h] at hc; exact Bool.noConfusion hc.2
  rw [scm_primitive_event_loop, if_neg hcond, hwait]

/-- C10: the compaction scan removes exactly the first record whose
descriptor equals the woke descriptor and stops there: the count drops by
one, records before the removed index keep their contents, and each record
after it moves exactly one slot left (so every other record, later woke
matches included, survives with relative order unchanged; slots past the
new count are untouched). -/
theorem compaction_removes_first_woke_only (wokefd : Int) (d : WaitData)
    (m : Nat) (hm : m < d.rv) (hhit : (d.events m).fd = wokefd)
    (hbef : ∀ j, j < m → (d.events j).fd ≠ wokefd) :
    (removeWokeLoop wokefd d 0).1.rv = d.rv - 1 ∧
    (removeWokeLoop wokefd d 0).2 = true ∧
    (∀ j, j < m → (removeWokeLoop wokefd d 0).1.events j = d.events j) ∧
    (∀ j, m ≤ j → j < d.rv - 1 →
      (removeWokeLoop wokefd d 0).1.events j = d.events (j + 1)) ∧
    (∀ j, d.rv - 1 ≤ j →
      (removeWokeLoop wokefd d 0).1.events j = d.events j) := by
  obtain ⟨heq, hlow, hmid, hhigh⟩ := removeWoke_first_facts wokefd d m hm hhit hbef
  rw [heq]
  exact ⟨rfl, rfl, hlow, hmid, hhigh⟩

/-- Concrete three-record buffer for the compaction witnesses: descriptor 5
(the woke descriptor) appears at slots 1 and 2; only slot 1 is removed. -/
def dC10 : WaitData :=
  { rv := 3,
    events := fun j =>
      if j = 0 then ⟨6, 2⟩ else if j = 1 then ⟨5, 2⟩ else
      if j = 2 then ⟨5, 4⟩ else ⟨0, 0⟩,
    maxevents := 4 }

/-- Witness for C10 on `dC10` with woke descriptor 5: the count drops to 2,
slot 0 keeps `(6, EV_READ)`, and slot 1 now holds the old slot 2 — the
second woke match `(5, EV_WRITE)` survives. -/
theorem compaction_removes_first_woke_only_witness :
    (removeWokeLoop 5 dC10 0).1.rv = 2 ∧
    (removeWokeLoop 5 dC10 0).2 = true ∧
    (removeWokeLoop 5 dC10 0).1.events 0 = ⟨6, 2⟩ ∧
    (removeWokeLoop 5 dC10 0).1.events 1 = ⟨5, 4⟩ := by
  have h := compaction_removes_first_woke_only 5 dC10 1 (by decide) (by decide)
    (fun j hj => by
      have hj0 : j = 0 := by omega
      subst hj0
      decide)
  refine ⟨h.1, h.2.1, ?_, ?_⟩
  · rw [h.2.2.1 0 (by decide)]
    decide
  · rw [h.2.2.2.1 1 (by decide) (by decide)]
    decide

/-- Counterexample to C2: when two collected records carry the woke
descriptor (e.g. two registrations watching the wake pipe), the scan breaks
after removing the first match, so the call returns count 1 and the record
it exposes still has the woke descriptor 5 — the returned result set is not
free of the wake descriptor, contradicting the claim that every such record
is removed. -/
theorem event_loop_woke_duplicate_remains :
    (scm_primitive_event_loop 7 5 (-1) false [(5, 2), (5, 2)] [] d0ex
        0).okCount = some 1 ∧
    (scm_primitive_event_loop 7 5 (-1) false [(5, 2), (5, 2)] [] d0ex
        0).okRecords = some [⟨5, 2⟩] := by
  constructor <;>
    simp [scm_primitive_event_loop, runWait, cb_func, removeWokeLoop,
      drainWithErrors, drainRemaining, d0ex, Function.update,
      LoopResult.okCount, LoopResult.okRecords, bufSlice, shiftDown,
      List.range_succ]

/-- C2 as amended: when the wait completes and some collected record's
descriptor equals the woke descriptor, the first such record (at index `m`)
is removed by shifting all later entries one slot left and decrementing the
count, so the call returns `count - 1`; records before `m` are unchanged and
each later record moves exactly one slot left; whenever the woke descriptor
occurs at most once among the collected records (the normal case — one wake
pipe registration), the returned result set contains no record with the
woke descriptor. -/
theorem event_loop_excludes_first_woke_record
    (wakefd wokefd : Int) (timeout : Int) (interrupted : Bool)
    (firings : List (Int × Nat)) (drainErrs : List Bool)
    (d d₁ : WaitData) (pending : Nat) (m : Nat)
    (hbranch : timeout = 0 ∨ interrupted = false)
    (hwait : runWait firings d = Except.ok d₁)
    (hm : m < d₁.rv) (hhit : (d₁.events m).fd = wokefd)
    (hbef : ∀ j, j < m → (d₁.events j).fd ≠ wokefd) :
    (scm_primitive_event_loop wakefd wokefd timeout interrupted firings
        drainErrs d pending).okCount = some (d₁.rv - 1) ∧
    (∀ n dfin p,
      (scm_primitive_event_loop wakefd wokefd timeout interrupted firings
          drainErrs d pending).outcome = Except.ok (n, dfin, p) →
      n = d₁.rv - 1 ∧
      (∀ j, j < m → dfin.events j = d₁.events j) ∧
      (∀ j, m ≤ j → j < d₁.rv - 1 → dfin.events j = d₁.events (j + 1)) ∧
      ((∀ j, j < d₁.rv → (d₁.events j).fd = wokefd → j = m) →
        ∀ j, j < d₁.rv - 1 → (dfin.events j).fd ≠ wokefd)) := by
  obtain ⟨heq, hlow, hmid, hhigh⟩ :=
    removeWoke_first_facts wokefd d₁ m hm hhit hbef
  rw [event_loop_run wakefd wokefd timeout interrupted firings drainErrs
    d d₁ pending hbranch hwait, heq]
  constructor
  · rfl
  · intro n dfin p h
    simp only [LoopResult.okCount] at h
    have h2 := Except.ok.inj h
    have hn := congrArg (fun x => x.1) h2
    have hdfin := congrArg (fun x => x.2.1) h2
    simp only at hn hdfin
    refine ⟨hn.symm, ?_, ?_, ?_⟩
    · intro j hj
      rw [← hdfin]
      exact hlow j hj
    · intro j hj1 hj2
      rw [← hdfin]
      exact hmid j hj1 hj2
    · intro huniq j hj
      rw [← hdfin]
      dsimp only
      by_cases hc : j < m
      · rw [hlow j hc]
        exact hbef j hc
      · rw [hmid j (by omega) hj]
        intro hfd
        have := huniq (j + 1) (by omega) hfd
        omega

/-- State of the shared buffer after the wait of the C2/C4 witness run:
three events `(6, EV_READ)`, `(5, EV_READ)`, `(7, EV_READ)` collected into
the fresh four-slot buffer. -/
def d1ex : WaitData :=
  { rv := 3,
    events := Function.update
      (Function.update (Function.update d0ex.events 0 ⟨6, 2⟩) 1 ⟨5, 2⟩)
      2 ⟨7, 2⟩,
    maxevents := 4 }

/-- Witness for C2 (amended): a blocking run collecting `(6,_), (5,_),
(7,_)` with woke descriptor 5 returns count 2, and slot 1 of the returned
set holds the old slot 2 record (descriptor 7) — the woke record at slot 1
was removed by the left shift. -/
theorem event_loop_excludes_first_woke_record_witness :
    (scm_primitive_event_loop 7 5 (-1) false [(6, 2), (5, 2), (7, 2)] []
        d0ex 0).okCount = some 2 ∧
    (removeWokeLoop 5 d1ex 0).1.events 1 = d1ex.events 2 := by
  have hbef : ∀ j, j < 1 → (d1ex.events j).fd ≠ 5 := by
    intro j hj
    have hj0 : j = 0 := by omega
    subst hj0
    decide
  have h := event_loop_excludes_first_woke_record 7 5 (-1) false
    [(6, 2), (5, 2), (7, 2)] [] d0ex d1ex 0 1 (Or.inr rfl) rfl (by decide)
    (by decide) hbef
  refine ⟨h.1, ?_⟩
  have hrun := event_loop_run 7 5 (-1) false [(6, 2), (5, 2), (7, 2)] []
    d0ex d1ex 0 (Or.inr rfl) rfl
  have hout := congrArg LoopResult.outcome hrun
  exact (h.2 _ _ _ hout).2.2.1 1 le_rfl (by decide)

/-- C4: with a nonzero timeout (and the prepare call not interrupted), the
loop call marks the context as waiting on the wake descriptor before the
wait, runs the wait outside the Guile context, and clears the mark after
the wait returns — in that order; with a timeout of exactly zero the wait
runs directly in the calling context with neither the marking, the
`scm_without_guile` wrapper, nor the clearing. -/
theorem event_loop_wait_protocol (wakefd wokefd : Int) (timeout : Int)
    (firings : List (Int × Nat)) (drainErrs : List Bool) (d : WaitData)
    (pending : Nat) :
    (∀ d₁, timeout ≠ 0 → runWait firings d = Except.ok d₁ →
      (scm_primitive_event_loop wakefd wokefd timeout false firings drainErrs
          d pending).trace =
        [SchedAction.prepareToWait wakefd, SchedAction.waitOutsideGuile,
         SchedAction.waitFinished]) ∧
    (∀ interrupted,
      (scm_primitive_event_loop wakefd wokefd 0 interrupted firings drainErrs
          d pending).trace = [SchedAction.waitDirect]) := by
  constructor
  · intro d₁ ht hwait
    rw [event_loop_run wakefd wokefd timeout false firings drainErrs d d₁
      pending (Or.inr rfl) hwait]
    simp [ht]
  · intro interrupted
    rw [scm_primitive_event_loop, if_neg (by simp)]
    dsimp only
    cases hrw : runWait firings d <;> simp

/-- Witness for C4: a blocking (`-1`) uninterrupted run performs prepare,
wait-outside-guile, wait-finished in order; a zero-timeout run performs
only the direct wait. -/
theorem event_loop_wait_protocol_witness :
    (scm_primitive_event_loop 7 5 (-1) false [] [] d0ex 0).trace =
      [SchedAction.prepareToWait 7, SchedAction.waitOutsideGuile,
       SchedAction.waitFinished] ∧
    (scm_primitive_event_loop 7 5 0 false [] [] d0ex 0).trace =
      [SchedAction.waitDirect] := by
  have h := event_loop_wait_protocol 7 5 (-1) [] [] d0ex 0
  exact ⟨h.1 d0ex (by decide) rfl, h.2 false⟩

/-- C6: when the wait completes and the scan finds the woke descriptor
among the collected records, the loop call drains the wake pipe with the
32-byte read loop — the pending byte count afterwards is what the drain
loop leaves, which is zero whenever no read errors occur, for any number of
pending bytes; a read error merely stops the drain, the call still
succeeds. -/
theorem event_loop_drains_wake_pipe (wakefd wokefd : Int) (timeout : Int)
    (interrupted : Bool) (firings : List (Int × Nat)) (drainErrs : List Bool)
    (d d₁ : WaitData) (pending : Nat)
    (hbranch : timeout = 0 ∨ interrupted = false)
    (hwait : runWait firings d = Except.ok d₁)
    (hfound : (removeWokeLoop wokefd d₁ 0).2 = true) :
    (scm_primitive_event_loop wakefd wokefd timeout interrupted firings
        drainErrs d pending).okPending =
      some (drainWithErrors drainErrs pending) ∧
    (∀ n, drainWithErrors [] n = 0) := by
  constructor
  · rw [event_loop_run wakefd wokefd timeout interrupted firings drainErrs
      d d₁ pending hbranch hwait]
    simp [LoopResult.okPending, hfound]
  · intro n
    simp [drainWithErrors, drainRemaining_eq_zero]

/-- Buffer state after the single `(5, EV_READ)` firing of the C6 witness
run. -/
def dWex : WaitData :=
  { rv := 1, events := Function.update d0ex.events 0 ⟨5, 2⟩, maxevents := 4 }

/-- Witness for C6: a blocking run that collects only the woke descriptor
(fd 5) with 70 bytes pending in the wake pipe and no read errors leaves 0
bytes pending. -/
theorem event_loop_drains_wake_pipe_witness :
    (scm_primitive_event_loop 7 5 (-1) false [(5, 2)] [] d0ex 70).okPending =
      some 0 := by
  have hfound : (removeWokeLoop 5 dWex 0).2 = true :=
    congrArg Prod.snd
      (removeWoke_first_facts 5 dWex 0 (by decide) (by decide)
        (fun j hj => absurd hj (by omega))).1
  have h := event_loop_drains_wake_pipe 7 5 (-1) false [(5, 2)] [] d0ex dWex
    70 (Or.inr rfl) rfl hfound
  rw [h.1]
  exact congrArg some (h.2 70)

/-- C9: the pending-results cursor is zero immediately after a successful
create-event-base; a nonzero-timeout loop call whose prepare reports an
interrupt zeroes the cursor and returns count 0 without waiting; and every
loop call that returns normally leaves the cursor at zero, so each call's
returned count covers only the events of its own iteration. -/
theorem pending_cursor_reset (buf : Nat → EventData) (bufLen : Nat)
    (wakefd wokefd : Int) (timeout : Int) (firings : List (Int × Nat))
    (drainErrs : List Bool) (d : WaitData) (pending : Nat) :
    scm_primitive_create_event_base true buf bufLen =
      Except.ok { rv := 0, events := buf,
                  maxevents := bufLen / sizeof_event_data } ∧
    (timeout ≠ 0 →
      (scm_primitive_event_loop wakefd wokefd timeout true firings drainErrs
          d pending).outcome = Except.ok (0, { d with rv := 0 }, pending)) ∧
    (∀ (interrupted : Bool) (n : Nat) (dfin : WaitData) (p : Nat),
      (scm_primitive_event_loop wakefd wokefd timeout interrupted firings
          drainErrs d pending).outcome = Except.ok (n, dfin, p) →
      dfin.rv = 0) := by
  refine ⟨rfl, ?_, ?_⟩
  · intro ht
    rw [event_loop_interrupted wakefd wokefd timeout firings drainErrs d
      pending ht]
  · intro interrupted n dfin p h
    rw [scm_primitive_event_loop] at h
    by_cases hc : timeout ≠ 0 ∧ interrupted = true
    · rw [if_pos hc] at h
      dsimp only at h
      have hdfin := congrArg (fun x => x.2.1) (Except.ok.inj h)
      simp only at hdfin
      rw [← hdfin]
    · rw [if_neg hc] at h
      dsimp only at h
      cases hrw : runWait firings d with
      | error e =>
        rw [hrw] at h
        exact Except.noConfusion h
      | ok d₁ =>
        rw [hrw] at h
        dsimp only at h
        have hdfin := congrArg (fun x => x.2.1) (Except.ok.inj h)
        simp only at hdfin
        rw [← hdfin]

/-- Witness for C9: creating a base over a 32-byte bytevector yields cursor
0; an interrupted blocking call on the full buffer returns count 0 with the
cursor zeroed; and the final state of that call indeed has cursor 0. -/
theorem pending_cursor_reset_witness :
    scm_primitive_create_event_base true (fun _ => ⟨0, 0⟩) 32 =
      Except.ok { rv := 0, events := fun _ => ⟨0, 0⟩, maxevents := 4 } ∧
    (scm_primitive_event_loop 7 5 (-1) true [] [] dFullEx 3).outcome =
      Except.ok (0, { dFullEx with rv := 0 }, 3) ∧
    ({ dFullEx with rv := 0 } : WaitData).rv = 0 := by
  have h := pending_cursor_reset (fun _ => ⟨0, 0⟩) 32 7 5 (-1) [] [] dFullEx 3
  exact ⟨h.1, h.2.1 (by decide),
    h.2.2 true 0 { dFullEx with rv := 0 } 3 (h.2.1 (by decide))⟩
